import Mathlib

/-!
Verification development for the error-feedback daemon of the `clawdbot`
repository.

The TypeScript sources embedded here:
  * `src/daemon/error-feedback/types.ts` — the data model (`ErrorBundle`,
    `ErrorBundleResolution`, `ErrorFeedbackDaemonState`, …).
  * `src/daemon/error-feedback/bundle-writer.ts` — `writeErrorBundle`,
    `readErrorBundle`, `listPendingBundles`.
  * `src/daemon/error-feedback/paths.ts` — `buildBundleFilename`.
  * `src/daemon/error-feedback/daemon.ts` — `moveBundleToProcessed`,
    `ErrorFeedbackDaemon.processBundle`, `ErrorFeedbackDaemon.processBatch`,
    `ErrorFeedbackDaemon.start`, `ErrorFeedbackDaemon.stop`.
  * `src/daemon/error-feedback/lifecycle.ts` — `getErrorFeedbackDaemonStatus`.

Modelling conventions:
  * The filesystem is reduced to the three bundle directories (`pending`,
    `processed`, `processed/invalid`), each an association list from file
    name (base name within the directory) to file content.
  * A file's content is either `unreadable` (I/O or JSON parse failure) or
    `parsed b`: the record the JSON text decodes to.  A missing `id` field
    decodes to the empty string, and `version` is an arbitrary natural —
    `readErrorBundle` validates both, exactly as the source does.
  * `JSON.stringify`/`JSON.parse` round-tripping of a well-typed record is
    the identity, so writing a record stores `parsed b` directly; the
    temporary `.tmp` path of the atomic write is never observable after the
    rename and is elided.
  * Timestamps (`new Date().toISOString()`) and `randomUUID()` are explicit
    parameters (`now`, `id`).
  * The pluggable processor is a function `ErrorBundle → ProcResult` where
    `ProcResult` distinguishes a returned resolution from a thrown error
    (carrying the `formatErrorMessage` text of the exception).
  * The `stopped` flag of the daemon can be flipped concurrently by
    `stop()` while a batch run is suspended at an `await`; the value the
    loop observes at each per-bundle `if (this.stopped) break` check is
    supplied as a list of booleans (`stopFlags`), one per iteration,
    defaulting to `false` when the list is exhausted (stop never called).
-/

namespace Clawdbot

/-- `ErrorBundleSeverity` from types.ts: `"error" | "warning" | "fatal"`. -/
inductive ErrorBundleSeverity where
  | error
  | warning
  | fatal
deriving DecidableEq, Repr

/-- `ErrorBundleSource` from types.ts (all fields optional). -/
structure ErrorBundleSource where
  skillName : Option String
  agentId : Option String
  sessionKey : Option String
  cronJobId : Option String
  channel : Option String
deriving DecidableEq, Repr

/-- `ErrorBundleContext` from types.ts (all fields optional). -/
structure ErrorBundleContext where
  command : Option String
  workspaceDir : Option String
  environment : Option (List (String × String))
  relatedFiles : Option (List String)
  skillContent : Option String
deriving DecidableEq, Repr

/-- `ErrorBundleEntry` from types.ts. -/
structure ErrorBundleEntry where
  message : String
  stack : Option String
  severity : ErrorBundleSeverity
  code : Option String
deriving DecidableEq, Repr

/-- `ErrorBundleResolution` from types.ts. -/
structure ErrorBundleResolution where
  resolved : Bool
  action : String
  modifiedFiles : Option (List String)
  retryTriggered : Bool
deriving DecidableEq, Repr

/-- `ErrorBundle` from types.ts.  `version` is typed `1` in TS, but a parsed
JSON file can carry any number, so it is a `Nat` here; `readErrorBundle`
checks it.  A missing `id` is modelled as `""` (the only falsy string). -/
structure ErrorBundle where
  id : String
  createdAt : String
  version : Nat
  source : ErrorBundleSource
  context : ErrorBundleContext
  errors : List ErrorBundleEntry
  retryCount : Nat
  maxRetries : Nat
  processed : Bool
  processedAt : Option String
  resolution : Option ErrorBundleResolution
deriving DecidableEq, Repr

/-- `ErrorFeedbackDaemonStatus` from types.ts. -/
inductive ErrorFeedbackDaemonStatus where
  | running
  | stopped
  | error
deriving DecidableEq, Repr

/-- `ErrorFeedbackDaemonState` from types.ts.  `pid` is optional; Node's
`process.pid` is a number and JS truthiness treats `0` like `undefined`,
which `getErrorFeedbackDaemonStatus` relies on. -/
structure ErrorFeedbackDaemonState where
  status : ErrorFeedbackDaemonStatus
  startedAt : Option String
  lastPollAt : Option String
  bundlesProcessed : Nat
  bundlesResolved : Nat
  bundlesFailed : Nat
  pid : Option Nat
deriving DecidableEq, Repr

/-- Content of one file as the daemon's reader sees it. -/
inductive FileContent where
  | unreadable
  | parsed (bundle : ErrorBundle)
deriving DecidableEq, Repr

/-- A directory: association list from base file name to content. -/
abbrev Dir := List (String × FileContent)

/-- Look a file up by name (first match). -/
def dirLookup : Dir → String → Option FileContent
  | [], _ => none
  | (m, c) :: rest, n => if m = n then some c else dirLookup rest n

/-- Delete every entry with the given name. -/
def dirRemove : Dir → String → Dir
  | [], _ => []
  | (m, c) :: rest, n =>
      if m = n then dirRemove rest n else (m, c) :: dirRemove rest n

/-- Create or overwrite a file. -/
def dirWrite (d : Dir) (n : String) (c : FileContent) : Dir :=
  (n, c) :: dirRemove d n

/-- The file names present in a directory. -/
def dirKeys (d : Dir) : List String := d.map Prod.fst

/-- The three bundle directories:
`<root>/pending`, `<root>/processed`, `<root>/processed/invalid`. -/
structure Fs where
  pending : Dir
  processed : Dir
  invalid : Dir
deriving DecidableEq, Repr

/-- paths.ts `buildBundleFilename`: format `error-<id>.json`. -/
def buildBundleFilename (bundleId : String) : String :=
  "error-" ++ bundleId ++ ".json"

/-- bundle-writer.ts `readErrorBundle` applied to one file's content:
`null` (here `none`) on read/parse failure, on a falsy `id`, or on
`version !== 1`; otherwise the parsed record. -/
def readErrorBundle : FileContent → Option ErrorBundle
  | .unreadable => none
  | .parsed b => if b.id = "" ∨ b.version ≠ 1 then none else some b

/-- `startsWith` on code points (embeds JS `String.prototype.startsWith` /
the `name.startsWith("error-")` filter). -/
def strStartsWith (s pre : String) : Bool :=
  pre.toList.isPrefixOf s.toList

/-- `endsWith` on code points (embeds the `name.endsWith(".json")` filter). -/
def strEndsWith (s suf : String) : Bool :=
  suf.toList.isSuffixOf s.toList

/-- Lexicographic string order on code points (embeds the default
`Array.prototype.sort()` comparison used by `listPendingBundles`). -/
def strLe (a b : String) : Bool :=
  decide (a.toList ≤ b.toList)

/-- Insert into a sorted list (helper of `sortNames`). -/
def insertSorted (n : String) : List String → List String
  | [] => [n]
  | m :: rest => if strLe n m then n :: m :: rest else m :: insertSorted n rest

/-- Insertion sort by `strLe` (embeds `Array.prototype.sort()`). -/
def sortNames : List String → List String
  | [] => []
  | n :: rest => insertSorted n (sortNames rest)

/-- bundle-writer.ts `listPendingBundles`: directory entries filtered to
`error-*.json` and sorted; paths are represented by base names. -/
def listPendingBundles (fs : Fs) : List String :=
  sortNames ((dirKeys fs.pending).filter
    (fun n => strStartsWith n "error-" && strEndsWith n ".json"))

/-- daemon.ts `moveBundleToProcessed`: stamp `processed = true` and
`processedAt = now`, write the updated record into `processed`, then
best-effort delete the pending copy (keyed by the bundle's own id). -/
def moveBundleToProcessed (fs : Fs) (b : ErrorBundle) (now : String) : Fs :=
  let updated : ErrorBundle := { b with processed := true, processedAt := some now }
  let fname := buildBundleFilename b.id
  { fs with
    processed := dirWrite fs.processed fname (.parsed updated)
    pending := dirRemove fs.pending fname }

/-- Outcome of one processor invocation: a returned resolution, or a thrown
error carrying its `formatErrorMessage` text. -/
inductive ProcResult where
  | ok (r : ErrorBundleResolution)
  | threw (msg : String)
deriving DecidableEq, Repr

/-- daemon.ts `ErrorFeedbackDaemon.processBundle` lines 319–364, given the
processor's outcome on this bundle.  Returns the updated daemon state and
filesystem. -/
def processBundle (s : ErrorFeedbackDaemonState) (fs : Fs) (b : ErrorBundle)
    (pr : ProcResult) (now : String) : ErrorFeedbackDaemonState × Fs :=
  match pr with
  | .ok resolution =>
      let b := { b with resolution := some resolution }
      let s := { s with bundlesProcessed := s.bundlesProcessed + 1 }
      if resolution.resolved then
        ({ s with bundlesResolved := s.bundlesResolved + 1 },
         moveBundleToProcessed fs b now)
      else if resolution.retryTriggered ∧ b.retryCount < b.maxRetries then
        -- Increment retry count and write the bundle back to pending.
        let b := { b with retryCount := b.retryCount + 1 }
        (s, { fs with
              pending := dirWrite fs.pending (buildBundleFilename b.id) (.parsed b) })
      else
        ({ s with bundlesFailed := s.bundlesFailed + 1 },
         moveBundleToProcessed fs b now)
  | .threw msg =>
      -- catch block: synthetic unresolved resolution, then best-effort move.
      let s := { s with bundlesFailed := s.bundlesFailed + 1 }
      let synthetic : ErrorBundleResolution :=
        { resolved := false
          action := "processing failed: " ++ msg
          modifiedFiles := none
          retryTriggered := false }
      let b := { b with resolution := some synthetic }
      (s, moveBundleToProcessed fs b now)

/-- One iteration of the batch loop of daemon.ts `processBatch`
(lines 287–307): read the file; quarantine it into `processed/invalid` when
unreadable/invalid; idempotent catch-up move when already `processed`;
otherwise run `processBundle` on the processor's outcome. -/
def processOneFile (proc : ErrorBundle → ProcResult) (now : String)
    (s : ErrorFeedbackDaemonState) (fs : Fs) (name : String) :
    ErrorFeedbackDaemonState × Fs :=
  match dirLookup fs.pending name with
  | none =>
      -- readFile fails; readErrorBundle returns null; the quarantine rename
      -- of the missing file fails and is swallowed by `.catch(() => {})`.
      (s, fs)
  | some c =>
      match readErrorBundle c with
      | none =>
          (s, { fs with
                invalid := dirWrite fs.invalid name c
                pending := dirRemove fs.pending name })
      | some b =>
          if b.processed then (s, moveBundleToProcessed fs b now)
          else processBundle s fs b (proc b) now

/-- The `for` loop of daemon.ts `processBatch`: each iteration first checks
`if (this.stopped) break`; the observed flag values are `stopFlags`
(`false` once the list is exhausted — stop never called). -/
def processBatchLoop (proc : ErrorBundle → ProcResult) (now : String) :
    List String → List Bool → ErrorFeedbackDaemonState → Fs →
    ErrorFeedbackDaemonState × Fs
  | [], _, s, fs => (s, fs)
  | name :: rest, stopFlags, s, fs =>
      if stopFlags.headD false then (s, fs)
      else
        let step := processOneFile proc now s fs name
        processBatchLoop proc now rest stopFlags.tail step.1 step.2

/-- `MAX_BATCH_SIZE` from daemon.ts. -/
def MAX_BATCH_SIZE : Nat := 10

/-- daemon.ts `ErrorFeedbackDaemon.processBatch` for a run that passes the
`processing || stopped` entry guard: stamp `lastPollAt`, list pending
bundles, return early when none, else run the loop on the first
`MAX_BATCH_SIZE` of them. -/
def processBatch (proc : ErrorBundle → ProcResult) (now : String)
    (stopFlags : List Bool) (s : ErrorFeedbackDaemonState) (fs : Fs) :
    ErrorFeedbackDaemonState × Fs :=
  let s := { s with lastPollAt := some now }
  let pendingFiles := listPendingBundles fs
  if pendingFiles.isEmpty then (s, fs)
  else processBatchLoop proc now (pendingFiles.take MAX_BATCH_SIZE) stopFlags s fs

/-- daemon.ts `ErrorFeedbackDaemon.start` lines 160–179, restricted to its
effect on the in-memory daemon state: a no-op while already running,
otherwise a fresh state with zeroed counters, `startedAt = now` and
`pid = process.pid`. -/
def daemonStart (s : ErrorFeedbackDaemonState) (now : String) (pid : Nat) :
    ErrorFeedbackDaemonState :=
  if s.status = .running then s
  else
    { status := .running
      startedAt := some now
      lastPollAt := none
      bundlesProcessed := 0
      bundlesResolved := 0
      bundlesFailed := 0
      pid := some pid }

/-- JS truthiness of the optional `pid` field: `undefined` and `0` are
falsy (`persisted.pid` in lifecycle.ts line 63). -/
def pidTruthy : Option Nat → Bool
  | none => false
  | some p => p ≠ 0

/-- lifecycle.ts `getErrorFeedbackDaemonStatus` lines 53–86.  `active` is
the in-process `activeDaemon`'s state (if any), `stateFile` the parsed
content of the persisted state file (`readDaemonState`, `none` when it
cannot be read), and `alive p` the outcome of the `process.kill(p, 0)`
liveness probe.  The source only reads the state file, so the pair
returned carries the file content untouched. -/
def getErrorFeedbackDaemonStatus (active : Option ErrorFeedbackDaemonState)
    (stateFile : Option ErrorFeedbackDaemonState) (alive : Nat → Bool) :
    ErrorFeedbackDaemonState × Option ErrorFeedbackDaemonState :=
  let result : ErrorFeedbackDaemonState :=
    match active with
    | some s => s
    | none =>
        match stateFile with
        | some persisted =>
            if persisted.status = .running ∧ pidTruthy persisted.pid then
              if alive (persisted.pid.getD 0) then persisted
              else { persisted with status := .stopped }
            else persisted
        | none =>
            { status := .stopped
              startedAt := none
              lastPollAt := none
              bundlesProcessed := 0
              bundlesResolved := 0
              bundlesFailed := 0
              pid := none }
  (result, stateFile)

/-- One element of `WriteErrorBundleParams.errors` after the external
`formatErrorMessage` / `extractErrorCode` helpers (which live outside this
package) have been applied to the raw `unknown` error. -/
structure RawErrorInput where
  message : String
  stack : Option String
  code : Option String
  severity : Option ErrorBundleSeverity
deriving DecidableEq, Repr

/-- bundle-writer.ts `WriteErrorBundleParams` (context is
`Partial<ErrorBundleContext>`, whose fields are all already optional). -/
structure WriteErrorBundleParams where
  source : ErrorBundleSource
  context : ErrorBundleContext
  errors : List RawErrorInput
  maxRetries : Option Nat
deriving DecidableEq, Repr

/-- bundle-writer.ts `DEFAULT_MAX_RETRIES`. -/
def DEFAULT_MAX_RETRIES : Nat := 3

/-- bundle-writer.ts `toErrorEntry`. -/
def toErrorEntry (raw : RawErrorInput) : ErrorBundleEntry :=
  { message := raw.message
    stack := raw.stack
    severity := raw.severity.getD .error
    code := raw.code }

/-- bundle-writer.ts `writeErrorBundle` lines 50–98: build the bundle
record (`version = 1`, `retryCount = 0`, `processed = false`) and write it
atomically into `pending` under `buildBundleFilename id`; `id` stands for
the `randomUUID()` result and `now` for `new Date().toISOString()`. -/
def writeErrorBundle (params : WriteErrorBundleParams) (id now : String)
    (fs : Fs) : ErrorBundle × Fs :=
  let bundle : ErrorBundle :=
    { id := id
      createdAt := now
      version := 1
      source := params.source
      context :=
        { command := params.context.command
          workspaceDir := params.context.workspaceDir
          environment := params.context.environment
          relatedFiles := params.context.relatedFiles
          skillContent := params.context.skillContent }
      errors := params.errors.map toErrorEntry
      retryCount := 0
      maxRetries := params.maxRetries.getD DEFAULT_MAX_RETRIES
      processed := false
      processedAt := none
      resolution := none }
  (bundle,
   { fs with pending := dirWrite fs.pending (buildBundleFilename id) (.parsed bundle) })

/-! ### Invariant definitions and concrete fixtures

`canonicalEntry`/`FsInv` capture the shape a real pending directory has:
pairwise-distinct file names, and every readable bundle file stored at its
canonical name `buildBundleFilename id` — both the external writer
(`writeErrorBundle`) and the daemon's own retry write-back use that name.
The concrete records below are fixtures for the closed instance theorems.
-/

/-- A single entry is canonically named if, when it parses as a valid
bundle, its file name is `buildBundleFilename` of the bundle's id. -/
def canonicalEntry (p : String × FileContent) : Bool :=
  match readErrorBundle p.2 with
  | some b => decide (p.1 = buildBundleFilename b.id)
  | none => true

/-- The directory-shape invariant on a filesystem state. -/
def FsInv (fs : Fs) : Prop :=
  (dirKeys fs.pending).Nodup ∧ ∀ p ∈ fs.pending, canonicalEntry p = true

instance : DecidablePred FsInv := fun fs => by
  unfold FsInv; infer_instance

/-- The pending-directory part of the invariant, stated on a `Dir`. -/
def DirInv (d : Dir) : Prop :=
  (dirKeys d).Nodup ∧ ∀ p ∈ d, canonicalEntry p = true

/-- Fixture: an empty source descriptor. -/
def src0 : ErrorBundleSource := ⟨none, none, none, none, none⟩

/-- Fixture: an empty context descriptor. -/
def ctx0 : ErrorBundleContext := ⟨none, none, none, none, none⟩

/-- Fixture: a fresh, valid bundle with the given id and retry numbers. -/
def mkBundle (id : String) (rc mr : Nat) (pr : Bool) : ErrorBundle :=
  { id := id
    createdAt := "2025-01-01T00:00:00.000Z"
    version := 1
    source := src0
    context := ctx0
    errors := [⟨"something broke", none, .error, none⟩]
    retryCount := rc
    maxRetries := mr
    processed := pr
    processedAt := none
    resolution := none }

/-- Fixture: a running daemon state with zeroed counters. -/
def st0 : ErrorFeedbackDaemonState :=
  ⟨.running, some "2025-01-01T00:00:00.000Z", none, 0, 0, 0, some 10⟩

/-- Fixture: the bundle of the retry scenario (budget not exhausted). -/
def bRetry : ErrorBundle := mkBundle "aaa" 0 3 false

/-- Fixture: a resolution requesting a retry. -/
def resRetry : ErrorBundleResolution := ⟨false, "relayed for analysis", none, true⟩

/-- Fixture: a pending directory holding only the retry bundle. -/
def fsRetry : Fs := ⟨[(buildBundleFilename "aaa", .parsed bRetry)], [], []⟩

/-- Fixture: a processor always requesting a retry. -/
def procRetry : ErrorBundle → ProcResult := fun _ => .ok resRetry

/-- Fixture: a bundle whose retry budget is exhausted. -/
def bExh : ErrorBundle := mkBundle "bbb" 2 2 false

/-- Fixture: a pending directory holding only the exhausted bundle. -/
def fsExh : Fs := ⟨[(buildBundleFilename "bbb", .parsed bExh)], [], []⟩

/-- Fixture: the bundle on which the processor will throw. -/
def bThrew : ErrorBundle := mkBundle "ccc" 0 3 false

/-- Fixture: a pending directory holding only that bundle. -/
def fsThrew : Fs := ⟨[(buildBundleFilename "ccc", .parsed bThrew)], [], []⟩

/-- Fixture: a processor that always throws. -/
def procThrew : ErrorBundle → ProcResult := fun _ => .threw "boom"

/-- Fixture: a file whose record carries an unsupported schema version. -/
def bBadVersion : ErrorBundle := { mkBundle "bad" 0 3 false with version := 2 }

/-- Fixture: a pending directory holding only the invalid file. -/
def fsBad : Fs := ⟨[(buildBundleFilename "bad", .parsed bBadVersion)], [], []⟩

/-- Fixture: two valid bundles for the two-item batch of the stop scenario. -/
def bA : ErrorBundle := mkBundle "a" 0 3 false

/-- Fixture: the second bundle of the stop scenario. -/
def bB : ErrorBundle := mkBundle "b" 0 3 false

/-- Fixture: a pending directory holding both bundles of the stop scenario. -/
def fsAB : Fs :=
  ⟨[(buildBundleFilename "a", .parsed bA), (buildBundleFilename "b", .parsed bB)], [], []⟩

/-- Fixture: a processor that resolves every bundle. -/
def procResolve : ErrorBundle → ProcResult := fun _ => .ok ⟨true, "fixed", none, false⟩

/-- Fixture: a stale leftover in `pending`, already marked processed with a
recorded `processedAt` and resolution. -/
def bStale : ErrorBundle :=
  { mkBundle "sss" 1 3 true with
    processedAt := some "2024-01-01T00:00:00.000Z"
    resolution := some ⟨true, "already fixed", none, false⟩ }

/-- Fixture: a pending directory holding only the stale leftover. -/
def fsStale : Fs := ⟨[(buildBundleFilename "sss", .parsed bStale)], [], []⟩

/-- Fixture: a persisted daemon state claiming to run under pid 4242. -/
def pRun : ErrorFeedbackDaemonState :=
  ⟨.running, some "2025-01-01T00:00:00.000Z", some "2025-01-01T00:05:00.000Z", 5, 2, 3, some 4242⟩

/-- Fixture: parameters for the round-trip write. -/
def paramsW : WriteErrorBundleParams :=
  ⟨src0, ctx0, [⟨"kaboom", some "trace", some "ENOENT", some .fatal⟩], some 2⟩

/-- Fixture: a previously-run daemon state with non-zero counters. -/
def sPrev : ErrorFeedbackDaemonState :=
  ⟨.stopped, some "2024-12-31T00:00:00.000Z", some "2024-12-31T01:00:00.000Z", 7, 3, 4, some 111⟩

/-! ### Directory lemmas -/

theorem dirLookup_dirRemove (d : Dir) (n m : String) :
    dirLookup (dirRemove d n) m = if m = n then none else dirLookup d m := by
  induction d with
  | nil => simp [dirRemove, dirLookup]
  | cons p rest ih =>
      obtain ⟨k, c⟩ := p
      by_cases hk : k = n
      · rw [show dirRemove ((k, c) :: rest) n = dirRemove rest n by
          simp [dirRemove, hk]]
        rw [ih]
        by_cases hm : m = n
        · simp [hm]
        · have hkm : ¬ k = m := fun h => hm (h ▸ hk)
          simp [hm, dirLookup, hkm]
      · rw [show dirRemove ((k, c) :: rest) n = (k, c) :: dirRemove rest n by
          simp [dirRemove, hk]]
        by_cases hkm : k = m
        · have hmn : ¬ m = n := fun h => hk (hkm.trans h)
          simp [dirLookup, hkm, hmn]
        · simp only [dirLookup, if_neg hkm, ih]

theorem dirLookup_dirWrite (d : Dir) (n m : String) (c : FileContent) :
    dirLookup (dirWrite d n c) m = if m = n then some c else dirLookup d m := by
  by_cases hm : m = n
  · simp [dirWrite, dirLookup, hm]
  · have hnm : ¬ n = m := fun h => hm h.symm
    simp [dirWrite, dirLookup, hnm, dirLookup_dirRemove, hm]

theorem dirLookup_mem {d : Dir} {n : String} {c : FileContent}
    (h : dirLookup d n = some c) : (n, c) ∈ d := by
  induction d with
  | nil => simp [dirLookup] at h
  | cons p rest ih =>
      obtain ⟨k, c'⟩ := p
      by_cases hk : k = n
      · rw [show dirLookup ((k, c') :: rest) n = some c' by
          simp [dirLookup, hk]] at h
        obtain rfl : c' = c := Option.some.inj h
        rw [hk]
        exact List.mem_cons_self _ _
      · rw [show dirLookup ((k, c') :: rest) n = dirLookup rest n by
          simp [dirLookup, hk]] at h
        exact List.mem_cons_of_mem _ (ih h)

theorem mem_dirRemove {d : Dir} {n : String} {p : String × FileContent}
    (h : p ∈ dirRemove d n) : p ∈ d := by
  induction d with
  | nil => simp [dirRemove] at h
  | cons q rest ih =>
      obtain ⟨k, c⟩ := q
      by_cases hk : k = n
      · rw [show dirRemove ((k, c) :: rest) n = dirRemove rest n by
          simp [dirRemove, hk]] at h
        exact List.mem_cons_of_mem _ (ih h)
      · rw [show dirRemove ((k, c) :: rest) n = (k, c) :: dirRemove rest n by
          simp [dirRemove, hk]] at h
        rcases List.mem_cons.mp h with h | h
        · exact h ▸ List.mem_cons_self _ _
        · exact List.mem_cons_of_mem _ (ih h)

theorem not_mem_dirKeys_dirRemove (d : Dir) (n : String) :
    n ∉ dirKeys (dirRemove d n) := by
  induction d with
  | nil => simp [dirRemove, dirKeys]
  | cons p rest ih =>
      obtain ⟨k, c⟩ := p
      by_cases hk : k = n
      · simpa [dirRemove, hk] using ih
      · simp only [dirRemove, if_neg hk, dirKeys, List.map_cons, List.mem_cons]
        rintro (h | h)
        · exact hk h.symm
        · exact ih h

theorem mem_dirKeys_dirRemove {d : Dir} {n m : String}
    (h : m ∈ dirKeys (dirRemove d n)) : m ∈ dirKeys d := by
  obtain ⟨p, hp, hval⟩ := List.mem_map.mp h
  exact List.mem_map.mpr ⟨p, mem_dirRemove hp, hval⟩

theorem nodup_dirKeys_dirRemove {d : Dir} (n : String)
    (h : (dirKeys d).Nodup) : (dirKeys (dirRemove d n)).Nodup := by
  induction d with
  | nil => simp [dirRemove, dirKeys]
  | cons p rest ih =>
      obtain ⟨k, c⟩ := p
      simp only [dirKeys, List.map_cons, List.nodup_cons] at h
      by_cases hk : k = n
      · simp only [dirRemove, if_pos hk]
        exact ih h.2
      · simp only [dirRemove, if_neg hk, dirKeys, List.map_cons, List.nodup_cons]
        exact ⟨fun hmem => h.1 (mem_dirKeys_dirRemove hmem), ih h.2⟩

theorem nodup_dirKeys_dirWrite {d : Dir} (n : String) (c : FileContent)
    (h : (dirKeys d).Nodup) : (dirKeys (dirWrite d n c)).Nodup := by
  simp only [dirWrite, dirKeys, List.map_cons, List.nodup_cons]
  exact ⟨not_mem_dirKeys_dirRemove d n, nodup_dirKeys_dirRemove n h⟩

/-! ### `readErrorBundle` inversion -/

theorem readErrorBundle_eq_some {c : FileContent} {b : ErrorBundle}
    (h : readErrorBundle c = some b) :
    c = .parsed b ∧ ¬ b.id = "" ∧ b.version = 1 := by
  cases c with
  | unreadable => simp [readErrorBundle] at h
  | parsed b' =>
      by_cases hcond : b'.id = "" ∨ b'.version ≠ 1
      · simp [readErrorBundle, hcond] at h
      · simp only [readErrorBundle, if_neg hcond, Option.some.injEq] at h
        push_neg at hcond
        subst h
        exact ⟨rfl, hcond.1, hcond.2⟩

theorem readErrorBundle_parsed_of_valid {b : ErrorBundle}
    (hid : ¬ b.id = "") (hver : b.version = 1) :
    readErrorBundle (.parsed b) = some b := by
  simp [readErrorBundle, hid, hver]

/-! ### Directory-shape invariant

A real `pending` directory has pairwise-distinct file names, and within
this system every readable bundle file sits at its canonical name
`buildBundleFilename id` — both the external writer (`writeErrorBundle`)
and the daemon's own retry write-back use that name.  The invariant is
preserved by every per-item step, which is what justifies reasoning about
one file of a batch independently of the others. -/

theorem canonicalEntry_name {n : String} {c : FileContent} {b : ErrorBundle}
    (hcanon : canonicalEntry (n, c) = true) (hread : readErrorBundle c = some b) :
    n = buildBundleFilename b.id := by
  simp only [canonicalEntry, hread, decide_eq_true_eq] at hcanon
  exact hcanon

/-! ### Sorting is a permutation -/

theorem insertSorted_perm (n : String) (l : List String) :
    (insertSorted n l).Perm (n :: l) := by
  induction l with
  | nil => simp [insertSorted]
  | cons m rest ih =>
      unfold insertSorted
      by_cases h : strLe n m
      · simp [h]
      · simp only [h, Bool.false_eq_true, if_false]
        exact (ih.cons m).trans (List.Perm.swap n m rest)

theorem sortNames_perm (l : List String) : (sortNames l).Perm l := by
  induction l with
  | nil => simp [sortNames]
  | cons n rest ih =>
      unfold sortNames
      exact (insertSorted_perm n (sortNames rest)).trans (ih.cons n)

theorem listPendingBundles_nodup {fs : Fs}
    (h : (dirKeys fs.pending).Nodup) : (listPendingBundles fs).Nodup := by
  unfold listPendingBundles
  exact (sortNames_perm _).symm.nodup (h.filter _)

/-! ### Invariant preservation and key-level frame lemmas -/

/-- A parsed bundle stored at its own canonical name is a canonical entry. -/
theorem canonicalEntry_self (b : ErrorBundle) :
    canonicalEntry (buildBundleFilename b.id, .parsed b) = true := by
  unfold canonicalEntry
  cases h : readErrorBundle (.parsed b) with
  | none => rfl
  | some b' =>
      obtain ⟨heq, -, -⟩ := readErrorBundle_eq_some h
      obtain rfl : b = b' := FileContent.parsed.inj heq
      simp

theorem fsInv_iff_dirInv (fs : Fs) : FsInv fs ↔ DirInv fs.pending := Iff.rfl

theorem DirInv.remove {d : Dir} (h : DirInv d) (n : String) :
    DirInv (dirRemove d n) :=
  ⟨nodup_dirKeys_dirRemove n h.1, fun p hp => h.2 p (mem_dirRemove hp)⟩

theorem DirInv.writeCanonical {d : Dir} (h : DirInv d) (b : ErrorBundle) :
    DirInv (dirWrite d (buildBundleFilename b.id) (.parsed b)) := by
  refine ⟨nodup_dirKeys_dirWrite _ _ h.1, ?_⟩
  intro p hp
  rcases List.mem_cons.mp hp with hp | hp
  · rw [hp]; exact canonicalEntry_self b
  · exact h.2 p (mem_dirRemove hp)

/-- Unfolding of `moveBundleToProcessed` as explicit directory operations. -/
theorem moveBundleToProcessed_def (fs : Fs) (b : ErrorBundle) (now : String) :
    moveBundleToProcessed fs b now =
      { pending := dirRemove fs.pending (buildBundleFilename b.id)
        processed := dirWrite fs.processed (buildBundleFilename b.id)
          (.parsed { b with processed := true, processedAt := some now })
        invalid := fs.invalid } := rfl

/-! ### Step equations for `processOneFile` / `processBundle` -/

theorem processOneFile_missing (proc : ErrorBundle → ProcResult) (now : String)
    (s : ErrorFeedbackDaemonState) (fs : Fs) (name : String)
    (hl : dirLookup fs.pending name = none) :
    processOneFile proc now s fs name = (s, fs) := by
  simp [processOneFile, hl]

theorem processOneFile_quarantine (proc : ErrorBundle → ProcResult) (now : String)
    (s : ErrorFeedbackDaemonState) (fs : Fs) (name : String) (c : FileContent)
    (hl : dirLookup fs.pending name = some c)
    (hr : readErrorBundle c = none) :
    processOneFile proc now s fs name =
      (s, { fs with invalid := dirWrite fs.invalid name c,
                    pending := dirRemove fs.pending name }) := by
  simp [processOneFile, hl, hr]

theorem processOneFile_catchup (proc : ErrorBundle → ProcResult) (now : String)
    (s : ErrorFeedbackDaemonState) (fs : Fs) (name : String) (c : FileContent)
    (b : ErrorBundle) (hl : dirLookup fs.pending name = some c)
    (hr : readErrorBundle c = some b) (hp : b.processed = true) :
    processOneFile proc now s fs name = (s, moveBundleToProcessed fs b now) := by
  simp [processOneFile, hl, hr, hp]

theorem processOneFile_invoke (proc : ErrorBundle → ProcResult) (now : String)
    (s : ErrorFeedbackDaemonState) (fs : Fs) (name : String) (c : FileContent)
    (b : ErrorBundle) (hl : dirLookup fs.pending name = some c)
    (hr : readErrorBundle c = some b) (hp : b.processed = false) :
    processOneFile proc now s fs name = processBundle s fs b (proc b) now := by
  simp [processOneFile, hl, hr, hp]

theorem processBundle_resolved (s : ErrorFeedbackDaemonState) (fs : Fs)
    (b : ErrorBundle) (r : ErrorBundleResolution) (now : String)
    (hres : r.resolved = true) :
    processBundle s fs b (.ok r) now =
      ({ s with bundlesProcessed := s.bundlesProcessed + 1
                bundlesResolved := s.bundlesResolved + 1 },
       moveBundleToProcessed fs { b with resolution := some r } now) := by
  simp [processBundle, hres]

theorem processBundle_retry (s : ErrorFeedbackDaemonState) (fs : Fs)
    (b : ErrorBundle) (r : ErrorBundleResolution) (now : String)
    (hres : r.resolved = false) (hrt : r.retryTriggered = true)
    (hrc : b.retryCount < b.maxRetries) :
    processBundle s fs b (.ok r) now =
      ({ s with bundlesProcessed := s.bundlesProcessed + 1 },
       { fs with pending := (dirWrite fs.pending (buildBundleFilename b.id)
           (.parsed { b with resolution := some r,
                             retryCount := b.retryCount + 1 })) }) := by
  simp [processBundle, hres, hrt, hrc]

theorem processBundle_exhausted (s : ErrorFeedbackDaemonState) (fs : Fs)
    (b : ErrorBundle) (r : ErrorBundleResolution) (now : String)
    (hres : r.resolved = false)
    (h : r.retryTriggered = false ∨ ¬ b.retryCount < b.maxRetries) :
    processBundle s fs b (.ok r) now =
      ({ s with bundlesProcessed := s.bundlesProcessed + 1
                bundlesFailed := s.bundlesFailed + 1 },
       moveBundleToProcessed fs { b with resolution := some r } now) := by
  have hcond : ¬ (r.retryTriggered = true ∧ b.retryCount < b.maxRetries) := by
    rcases h with h | h
    · simp [h]
    · simp [h]
  simp [processBundle, hres, hcond]

theorem processBundle_threw (s : ErrorFeedbackDaemonState) (fs : Fs)
    (b : ErrorBundle) (msg : String) (now : String) :
    processBundle s fs b (.threw msg) now =
      ({ s with bundlesFailed := s.bundlesFailed + 1 },
       moveBundleToProcessed fs
         { b with resolution := some (ErrorBundleResolution.mk false
             ("processing failed: " ++ msg) none false) } now) := by
  simp [processBundle]

/-- Every per-item step touches the filesystem only at the file name it was
given: the new `pending` is the old one, or the old one with `name`
removed, or with a valid bundle written back at `name`; `processed` gains
at most an entry at `name`; `invalid` gains at most an entry at `name`.
Canonical naming (from `FsInv`) is what ties the bundle-id-keyed writes of
`moveBundleToProcessed` back to `name`. -/
theorem processOneFile_shape (proc : ErrorBundle → ProcResult) (now : String)
    (s : ErrorFeedbackDaemonState) (fs : Fs) (name : String) (hinv : FsInv fs) :
    ((processOneFile proc now s fs name).2.pending = fs.pending ∨
      (processOneFile proc now s fs name).2.pending = dirRemove fs.pending name ∨
      ∃ b', ¬ b'.id = "" ∧ b'.version = 1 ∧ buildBundleFilename b'.id = name ∧
        (processOneFile proc now s fs name).2.pending =
          dirWrite fs.pending name (.parsed b')) ∧
    ((processOneFile proc now s fs name).2.processed = fs.processed ∨
      ∃ b', (processOneFile proc now s fs name).2.processed =
        dirWrite fs.processed name (.parsed b')) ∧
    ((processOneFile proc now s fs name).2.invalid = fs.invalid ∨
      ∃ c, (processOneFile proc now s fs name).2.invalid =
        dirWrite fs.invalid name c) := by
  cases hl : dirLookup fs.pending name with
  | none =>
      rw [processOneFile_missing proc now s fs name hl]
      exact ⟨Or.inl rfl, Or.inl rfl, Or.inl rfl⟩
  | some c =>
      have hcanon : canonicalEntry (name, c) = true := hinv.2 _ (dirLookup_mem hl)
      cases hr : readErrorBundle c with
      | none =>
          rw [processOneFile_quarantine proc now s fs name c hl hr]
          exact ⟨Or.inr (Or.inl rfl), Or.inl rfl, Or.inr ⟨c, rfl⟩⟩
      | some b =>
          have hname : name = buildBundleFilename b.id := canonicalEntry_name hcanon hr
          obtain ⟨-, hid, hver⟩ := readErrorBundle_eq_some hr
          subst hname
          by_cases hp : b.processed = true
          · rw [processOneFile_catchup proc now s fs _ c b hl hr hp,
              moveBundleToProcessed_def]
            exact ⟨Or.inr (Or.inl rfl), Or.inr ⟨_, rfl⟩, Or.inl rfl⟩
          · have hp' : b.processed = false := by simpa using hp
            rw [processOneFile_invoke proc now s fs _ c b hl hr hp']
            cases hpr : proc b with
            | ok r =>
                by_cases hres : r.resolved = true
                · rw [processBundle_resolved s fs b r now hres,
                    moveBundleToProcessed_def]
                  exact ⟨Or.inr (Or.inl rfl), Or.inr ⟨_, rfl⟩, Or.inl rfl⟩
                · have hres' : r.resolved = false := by simpa using hres
                  by_cases hrt : r.retryTriggered = true
                  · by_cases hrc : b.retryCount < b.maxRetries
                    · rw [processBundle_retry s fs b r now hres' hrt hrc]
                      refine ⟨Or.inr (Or.inr
                        ⟨{ b with resolution := some r, retryCount := b.retryCount + 1 },
                          hid, hver, rfl, rfl⟩), Or.inl rfl, Or.inl rfl⟩
                    · rw [processBundle_exhausted s fs b r now hres' (Or.inr hrc),
                        moveBundleToProcessed_def]
                      exact ⟨Or.inr (Or.inl rfl), Or.inr ⟨_, rfl⟩, Or.inl rfl⟩
                  · have hrt' : r.retryTriggered = false := by simpa using hrt
                    rw [processBundle_exhausted s fs b r now hres' (Or.inl hrt'),
                      moveBundleToProcessed_def]
                    exact ⟨Or.inr (Or.inl rfl), Or.inr ⟨_, rfl⟩, Or.inl rfl⟩
            | threw msg =>
                rw [processBundle_threw, moveBundleToProcessed_def]
                exact ⟨Or.inr (Or.inl rfl), Or.inr ⟨_, rfl⟩, Or.inl rfl⟩

/-- The directory-shape invariant survives every per-item step. -/
theorem FsInv_processOneFile (proc : ErrorBundle → ProcResult) (now : String)
    (s : ErrorFeedbackDaemonState) (fs : Fs) (name : String) (hinv : FsInv fs) :
    FsInv (processOneFile proc now s fs name).2 := by
  obtain ⟨hpend, -, -⟩ := processOneFile_shape proc now s fs name hinv
  rw [fsInv_iff_dirInv]
  rcases hpend with h | h | ⟨b', -, -, hkey, h⟩
  · rw [h]; exact hinv
  · rw [h]; exact (fsInv_iff_dirInv fs).mp hinv |>.remove name
  · rw [h, ← hkey]
    exact ((fsInv_iff_dirInv fs).mp hinv).writeCanonical b'

/-- Frame: a step on one file leaves every other file name untouched in
all three directories. -/
theorem processOneFile_frame (proc : ErrorBundle → ProcResult) (now : String)
    (s : ErrorFeedbackDaemonState) (fs : Fs) (name fname : String)
    (hinv : FsInv fs) (hne : ¬ name = fname) :
    dirLookup (processOneFile proc now s fs name).2.pending fname =
      dirLookup fs.pending fname ∧
    dirLookup (processOneFile proc now s fs name).2.processed fname =
      dirLookup fs.processed fname ∧
    dirLookup (processOneFile proc now s fs name).2.invalid fname =
      dirLookup fs.invalid fname := by
  have hne' : ¬ fname = name := fun h => hne h.symm
  obtain ⟨hpend, hproc, hinvd⟩ := processOneFile_shape proc now s fs name hinv
  refine ⟨?_, ?_, ?_⟩
  · rcases hpend with h | h | ⟨b', -, -, -, h⟩
    · rw [h]
    · rw [h, dirLookup_dirRemove, if_neg hne']
    · rw [h, dirLookup_dirWrite, if_neg hne']
  · rcases hproc with h | ⟨b', h⟩
    · rw [h]
    · rw [h, dirLookup_dirWrite, if_neg hne']
  · rcases hinvd with h | ⟨c, h⟩
    · rw [h]
    · rw [h, dirLookup_dirWrite, if_neg hne']

/-! ### Batch-loop lemmas -/

theorem processBatchLoop_cons_nostop (proc : ErrorBundle → ProcResult)
    (now : String) (name : String) (rest : List String)
    (s : ErrorFeedbackDaemonState) (fs : Fs) :
    processBatchLoop proc now (name :: rest) [] s fs =
      processBatchLoop proc now rest []
        (processOneFile proc now s fs name).1
        (processOneFile proc now s fs name).2 := by
  simp [processBatchLoop]

theorem processBatchLoop_append (proc : ErrorBundle → ProcResult)
    (now : String) (l1 l2 : List String)
    (s : ErrorFeedbackDaemonState) (fs : Fs) :
    processBatchLoop proc now (l1 ++ l2) [] s fs =
      processBatchLoop proc now l2 []
        (processBatchLoop proc now l1 [] s fs).1
        (processBatchLoop proc now l1 [] s fs).2 := by
  induction l1 generalizing s fs with
  | nil => simp [processBatchLoop]
  | cons n rest ih =>
      rw [List.cons_append, processBatchLoop_cons_nostop,
        processBatchLoop_cons_nostop, ih]

theorem FsInv_processBatchLoop (proc : ErrorBundle → ProcResult) (now : String)
    (names : List String) (stopFlags : List Bool)
    (s : ErrorFeedbackDaemonState) (fs : Fs) (hinv : FsInv fs) :
    FsInv (processBatchLoop proc now names stopFlags s fs).2 := by
  induction names generalizing stopFlags s fs with
  | nil => exact hinv
  | cons n rest ih =>
      unfold processBatchLoop
      by_cases hstop : stopFlags.headD false = true
      · simp only [hstop, if_true]; exact hinv
      · simp only [hstop, if_false]
        exact ih _ _ _ (FsInv_processOneFile proc now s fs n hinv)

theorem processBatchLoop_frame (proc : ErrorBundle → ProcResult) (now : String)
    (names : List String) (s : ErrorFeedbackDaemonState) (fs : Fs)
    (fname : String) (hinv : FsInv fs) (hnot : fname ∉ names) :
    dirLookup (processBatchLoop proc now names [] s fs).2.pending fname =
      dirLookup fs.pending fname ∧
    dirLookup (processBatchLoop proc now names [] s fs).2.processed fname =
      dirLookup fs.processed fname ∧
    dirLookup (processBatchLoop proc now names [] s fs).2.invalid fname =
      dirLookup fs.invalid fname := by
  induction names generalizing s fs with
  | nil => exact ⟨rfl, rfl, rfl⟩
  | cons n rest ih =>
      have hne : ¬ n = fname := fun h => hnot (h ▸ List.mem_cons_self n rest)
      have hrest : fname ∉ rest := fun h => hnot (List.mem_cons_of_mem n h)
      obtain ⟨h1, h2, h3⟩ := processOneFile_frame proc now s fs n fname hinv hne
      obtain ⟨g1, g2, g3⟩ := ih
        (processOneFile proc now s fs n).1
        (processOneFile proc now s fs n).2
        (FsInv_processOneFile proc now s fs n hinv) hrest
      rw [processBatchLoop_cons_nostop]
      exact ⟨g1.trans h1, g2.trans h2, g3.trans h3⟩

theorem processBatch_run (proc : ErrorBundle → ProcResult) (now : String)
    (stopFlags : List Bool) (s : ErrorFeedbackDaemonState) (fs : Fs)
    (h : listPendingBundles fs ≠ []) :
    processBatch proc now stopFlags s fs =
      processBatchLoop proc now ((listPendingBundles fs).take MAX_BATCH_SIZE)
        stopFlags { s with lastPollAt := some now } fs := by
  simp [processBatch, List.isEmpty_iff, h]

/-- The whole effect of a complete (never-stopped) batch run on the three
directory entries of one file in the batch is the effect of the single
per-item step on that file, taken from some intermediate state that still
agrees with the initial one at that file's name. -/
theorem processBatch_isolated_step (proc : ErrorBundle → ProcResult)
    (now : String) (s : ErrorFeedbackDaemonState) (fs : Fs) (fname : String)
    (hinv : FsInv fs)
    (hmem : fname ∈ (listPendingBundles fs).take MAX_BATCH_SIZE) :
    ∃ s1 fs1,
      dirLookup fs1.pending fname = dirLookup fs.pending fname ∧
      dirLookup fs1.processed fname = dirLookup fs.processed fname ∧
      dirLookup fs1.invalid fname = dirLookup fs.invalid fname ∧
      FsInv fs1 ∧
      dirLookup (processBatch proc now [] s fs).2.pending fname =
        dirLookup (processOneFile proc now s1 fs1 fname).2.pending fname ∧
      dirLookup (processBatch proc now [] s fs).2.processed fname =
        dirLookup (processOneFile proc now s1 fs1 fname).2.processed fname ∧
      dirLookup (processBatch proc now [] s fs).2.invalid fname =
        dirLookup (processOneFile proc now s1 fs1 fname).2.invalid fname := by
  have hne : listPendingBundles fs ≠ [] :=
    List.ne_nil_of_mem ((List.take_sublist _ _).mem hmem)
  have hnodup : ((listPendingBundles fs).take MAX_BATCH_SIZE).Nodup :=
    (listPendingBundles_nodup hinv.1).sublist (List.take_sublist _ _)
  obtain ⟨l1, l2, hsplit⟩ := List.append_of_mem hmem
  rw [hsplit] at hnodup
  have hnot1 : fname ∉ l1 := by
    rcases List.nodup_append.mp hnodup with ⟨-, -, hdisj⟩
    exact fun h => hdisj h (List.mem_cons_self _ _)
  have hnot2 : fname ∉ l2 := by
    rcases List.nodup_append.mp hnodup with ⟨-, hcons, -⟩
    exact (List.nodup_cons.mp hcons).1
  refine ⟨(processBatchLoop proc now l1 [] { s with lastPollAt := some now } fs).1,
    (processBatchLoop proc now l1 [] { s with lastPollAt := some now } fs).2,
    ?_⟩
  obtain ⟨f1, f2, f3⟩ := processBatchLoop_frame proc now l1
    { s with lastPollAt := some now } fs fname hinv hnot1
  have hinv1 : FsInv (processBatchLoop proc now l1 []
      { s with lastPollAt := some now } fs).2 :=
    FsInv_processBatchLoop proc now l1 [] _ fs hinv
  have hrun : processBatch proc now [] s fs =
      processBatchLoop proc now l2 []
        (processOneFile proc now
          (processBatchLoop proc now l1 [] { s with lastPollAt := some now } fs).1
          (processBatchLoop proc now l1 [] { s with lastPollAt := some now } fs).2
          fname).1
        (processOneFile proc now
          (processBatchLoop proc now l1 [] { s with lastPollAt := some now } fs).1
          (processBatchLoop proc now l1 [] { s with lastPollAt := some now } fs).2
          fname).2 := by
    rw [processBatch_run proc now [] s fs hne, hsplit, processBatchLoop_append,
      processBatchLoop_cons_nostop]
  obtain ⟨g1, g2, g3⟩ := processBatchLoop_frame proc now l2
    (processOneFile proc now _ _ fname).1
    (processOneFile proc now
      (processBatchLoop proc now l1 [] { s with lastPollAt := some now } fs).1
      (processBatchLoop proc now l1 [] { s with lastPollAt := some now } fs).2
      fname).2
    fname (FsInv_processOneFile proc now _ _ fname hinv1) hnot2
  rw [hrun]
  exact ⟨f1, f2, f3, hinv1, g1, g2, g3⟩

/-! ### Claim theorems -/

/-- C1: for every bundle in `pending` with `retryCount < maxRetries` whose
processor invocation returns a resolution with `resolved = false` and
`retryTriggered = true`, at the end of that batch run the bundle is still
in the pending directory with `retryCount` increased by exactly 1, and no
copy of it is in the processed directory. -/
theorem c1_retry_keeps_bundle_pending (proc : ErrorBundle → ProcResult)
    (now : String) (s : ErrorFeedbackDaemonState) (fs : Fs)
    (b : ErrorBundle) (r : ErrorBundleResolution)
    (hinv : FsInv fs)
    (hpend : dirLookup fs.pending (buildBundleFilename b.id) = some (.parsed b))
    (hid : ¬ b.id = "") (hver : b.version = 1) (hunproc : b.processed = false)
    (hmem : buildBundleFilename b.id ∈ (listPendingBundles fs).take MAX_BATCH_SIZE)
    (hprocres : proc b = .ok r)
    (hres : r.resolved = false) (hrt : r.retryTriggered = true)
    (hrc : b.retryCount < b.maxRetries)
    (hnocopy : dirLookup fs.processed (buildBundleFilename b.id) = none) :
    dirLookup (processBatch proc now [] s fs).2.pending (buildBundleFilename b.id) =
      some (.parsed { b with resolution := some r, retryCount := b.retryCount + 1 }) ∧
    dirLookup (processBatch proc now [] s fs).2.processed (buildBundleFilename b.id) =
      none := by
  obtain ⟨s1, fs1, e1, e2, e3, hinv1, q1, q2, q3⟩ :=
    processBatch_isolated_step proc now s fs _ hinv hmem
  have hl1 : dirLookup fs1.pending (buildBundleFilename b.id) = some (.parsed b) :=
    e1.trans hpend
  have hstep : processOneFile proc now s1 fs1 (buildBundleFilename b.id) =
      processBundle s1 fs1 b (proc b) now :=
    processOneFile_invoke proc now s1 fs1 _ _ b hl1
      (readErrorBundle_parsed_of_valid hid hver) hunproc
  rw [hstep, hprocres, processBundle_retry s1 fs1 b r now hres hrt hrc] at q1 q2
  constructor
  · rw [q1]
    simp [dirLookup_dirWrite]
  · rw [q2]
    exact e2.trans hnocopy

/-- C2: for every bundle with `retryCount == maxRetries` whose processor
invocation returns a resolution, the bundle is moved to the processed
directory after processing regardless of the resolution's `retryTriggered`
flag, and when `resolved = false` the failed counter is incremented by 1. -/
theorem c2_exhausted_always_moved (s : ErrorFeedbackDaemonState) (fs : Fs)
    (b : ErrorBundle) (r : ErrorBundleResolution) (now : String)
    (hrc : b.retryCount = b.maxRetries) :
    dirLookup (processBundle s fs b (.ok r) now).2.processed
        (buildBundleFilename b.id) =
      some (.parsed { b with resolution := some r, processed := true,
                             processedAt := some now }) ∧
    dirLookup (processBundle s fs b (.ok r) now).2.pending
        (buildBundleFilename b.id) = none ∧
    (r.resolved = false →
      (processBundle s fs b (.ok r) now).1.bundlesFailed = s.bundlesFailed + 1) := by
  have hnotlt : ¬ b.retryCount < b.maxRetries := by omega
  by_cases hres : r.resolved = true
  · rw [processBundle_resolved s fs b r now hres, moveBundleToProcessed_def]
    refine ⟨?_, ?_, ?_⟩
    · simp [dirLookup_dirWrite]
    · simp [dirLookup_dirRemove]
    · intro h; rw [h] at hres; exact absurd hres (by simp)
  · have hres' : r.resolved = false := by simpa using hres
    rw [processBundle_exhausted s fs b r now hres' (Or.inr hnotlt),
      moveBundleToProcessed_def]
    refine ⟨?_, ?_, ?_⟩
    · simp [dirLookup_dirWrite]
    · simp [dirLookup_dirRemove]
    · intro h; rfl

/-- C3: for every bundle whose processor invocation throws, the exception
is caught inside the per-bundle step, the bundle receives a synthetic
resolution with `resolved = false` and `retryTriggered = false` whose
action text describes the failure, the bundle is moved to the processed
directory, and the batch loop continues with the next bundle instead of
aborting. -/
theorem c3_processor_throw_contained (proc : ErrorBundle → ProcResult)
    (now : String) (s : ErrorFeedbackDaemonState) (fs : Fs)
    (name : String) (rest : List String) (b : ErrorBundle) (msg : String)
    (hl : dirLookup fs.pending name = some (.parsed b))
    (hid : ¬ b.id = "") (hver : b.version = 1) (hunproc : b.processed = false)
    (hname : name = buildBundleFilename b.id)
    (hthrew : proc b = .threw msg) :
    dirLookup (processOneFile proc now s fs name).2.processed name =
      some (.parsed { b with
        resolution := some (ErrorBundleResolution.mk false
          ("processing failed: " ++ msg) none false)
        processed := true
        processedAt := some now }) ∧
    dirLookup (processOneFile proc now s fs name).2.pending name = none ∧
    processBatchLoop proc now (name :: rest) [] s fs =
      processBatchLoop proc now rest []
        (processOneFile proc now s fs name).1
        (processOneFile proc now s fs name).2 := by
  subst hname
  have hstep : processOneFile proc now s fs (buildBundleFilename b.id) =
      processBundle s fs b (proc b) now :=
    processOneFile_invoke proc now s fs _ _ b hl
      (readErrorBundle_parsed_of_valid hid hver) hunproc
  refine ⟨?_, ?_, processBatchLoop_cons_nostop proc now _ rest s fs⟩
  · rw [hstep, hthrew, processBundle_threw, moveBundleToProcessed_def]
    simp [dirLookup_dirWrite]
  · rw [hstep, hthrew, processBundle_threw, moveBundleToProcessed_def]
    simp [dirLookup_dirRemove]

/-- C4: for every file in `pending` whose content has a missing identifier
or a schema version other than 1 (or cannot be read or parsed at all),
reading it returns absent rather than raising, and after one batch run
that includes it the file is no longer a live pending entry: it is located
under `processed/invalid`, unmodified, and (being gone from `pending`) is
never retried. -/
theorem c4_invalid_file_quarantined (proc : ErrorBundle → ProcResult)
    (now : String) (s : ErrorFeedbackDaemonState) (fs : Fs)
    (name : String) (c : FileContent)
    (hinv : FsInv fs)
    (hl : dirLookup fs.pending name = some c)
    (hbad : c = .unreadable ∨ ∃ b, c = .parsed b ∧ (b.id = "" ∨ b.version ≠ 1))
    (hmem : name ∈ (listPendingBundles fs).take MAX_BATCH_SIZE) :
    readErrorBundle c = none ∧
    dirLookup (processBatch proc now [] s fs).2.invalid name = some c ∧
    dirLookup (processBatch proc now [] s fs).2.pending name = none := by
  have hread : readErrorBundle c = none := by
    rcases hbad with h | ⟨b, hb, hcond⟩
    · rw [h]; rfl
    · rw [hb]; simp [readErrorBundle, hcond]
  obtain ⟨s1, fs1, e1, e2, e3, hinv1, q1, q2, q3⟩ :=
    processBatch_isolated_step proc now s fs name hinv hmem
  have hl1 : dirLookup fs1.pending name = some c := e1.trans hl
  rw [processOneFile_quarantine proc now s1 fs1 name c hl1 hread] at q1 q3
  refine ⟨hread, ?_, ?_⟩
  · rw [q3]
    simp [dirLookup_dirWrite]
  · rw [q1]
    simp [dirLookup_dirRemove]

/-- C5 counterexample: with two valid bundles in the batch and the stop
flag observed `true` at the second per-bundle check (stop() called while
the first bundle was being processed), the second bundle — although
selected into the run's batch — is not processed: it stays in `pending`
unchanged and never reaches `processed`, even though the same run without
a stop would have moved it there.  This refutes the claim that stopping
never prevents a started run from processing the rest of its batch. -/
theorem c5_counterexample :
    buildBundleFilename "b" ∈ (listPendingBundles fsAB).take MAX_BATCH_SIZE ∧
    dirLookup (processBatch procResolve "t1" [false, true] st0 fsAB).2.pending
        (buildBundleFilename "b") = some (.parsed bB) ∧
    dirLookup (processBatch procResolve "t1" [false, true] st0 fsAB).2.processed
        (buildBundleFilename "b") = none ∧
    dirLookup (processBatch procResolve "t1" [] st0 fsAB).2.pending
        (buildBundleFilename "b") = none := by
  decide

/-- C5 amended: a batch run started before `stop()` processes exactly the
bundles reached before the per-bundle `stopped` check first observes the
flag; from that check on, the run halts and leaves every remaining bundle
of the batch untouched, as if the batch had contained only its first `i`
items.  (Stop also halts new triggers and the watcher/poll/debounce
timers; what it does not interrupt is the bundle currently mid-step.) -/
theorem c5_amended_stop_halts_at_bundle_boundary
    (proc : ErrorBundle → ProcResult) (now : String) (names : List String)
    (rest : List Bool) (s : ErrorFeedbackDaemonState) (fs : Fs) (i : Nat) :
    processBatchLoop proc now names (List.replicate i false ++ true :: rest) s fs =
      processBatchLoop proc now (names.take i) [] s fs := by
  induction names generalizing i s fs with
  | nil => simp [processBatchLoop]
  | cons n ns ih =>
      cases i with
      | zero => simp [processBatchLoop]
      | succ j =>
          rw [List.replicate_succ, List.cons_append, List.take_succ_cons]
          rw [show processBatchLoop proc now (n :: ns)
              (false :: (List.replicate j false ++ true :: rest)) s fs =
              processBatchLoop proc now ns (List.replicate j false ++ true :: rest)
                (processOneFile proc now s fs n).1
                (processOneFile proc now s fs n).2 from by
            simp [processBatchLoop]]
          rw [processBatchLoop_cons_nostop, ih]

/-- C6 counterexample: a stale leftover in `pending` already marked
`processed = true` with a recorded `processedAt` is moved by the idempotent
catch-up step, but the record that lands in `processed` carries a fresh
`processedAt` — the original timestamp is not preserved, refuting the
claim that all fields are left unchanged. -/
theorem c6_counterexample :
    dirLookup (processOneFile procResolve "2025-06-01T00:00:00.000Z" st0 fsStale
        (buildBundleFilename "sss")).2.processed (buildBundleFilename "sss") =
      some (.parsed { bStale with processedAt := some "2025-06-01T00:00:00.000Z" }) ∧
    bStale.processedAt = some "2024-01-01T00:00:00.000Z" ∧
    (some "2025-06-01T00:00:00.000Z" : Option String) ≠
      some "2024-01-01T00:00:00.000Z" := by
  decide

/-- C6 amended: the idempotent catch-up step moves a stale
`processed = true` leftover from `pending` to `processed` without touching
the daemon counters, preserving every field of the bundle — in particular
its resolution — except `processedAt`, which is restamped with the time of
the move. -/
theorem c6_amended_catchup_restamps_processedAt
    (proc : ErrorBundle → ProcResult) (now : String)
    (s : ErrorFeedbackDaemonState) (fs : Fs) (name : String) (b : ErrorBundle)
    (hl : dirLookup fs.pending name = some (.parsed b))
    (hid : ¬ b.id = "") (hver : b.version = 1) (hp : b.processed = true)
    (hname : name = buildBundleFilename b.id) :
    dirLookup (processOneFile proc now s fs name).2.processed name =
      some (.parsed { b with processed := true, processedAt := some now }) ∧
    dirLookup (processOneFile proc now s fs name).2.pending name = none ∧
    (processOneFile proc now s fs name).1 = s := by
  subst hname
  rw [processOneFile_catchup proc now s fs _ _ b hl
    (readErrorBundle_parsed_of_valid hid hver) hp, moveBundleToProcessed_def]
  refine ⟨?_, ?_, rfl⟩
  · simp [dirLookup_dirWrite]
  · simp [dirLookup_dirRemove]

/-- C7: a status query issued with no in-process daemon instance, reading
a persisted state that claims `running` with a recorded (non-zero) pid:
when the pid is not alive the query returns the persisted state downgraded
to `stopped` with every other field intact, and when the pid is alive it
returns the persisted state unchanged; in both cases the stored file is
not modified. -/
theorem c7_status_query_crash_detection (p : ErrorFeedbackDaemonState)
    (alive : Nat → Bool) (q : Nat)
    (hrun : p.status = .running) (hpid : p.pid = some q) (hq : q ≠ 0) :
    (alive q = false →
      getErrorFeedbackDaemonStatus none (some p) alive =
        ({ p with status := .stopped }, some p)) ∧
    (alive q = true →
      getErrorFeedbackDaemonStatus none (some p) alive = (p, some p)) := by
  constructor
  · intro h
    simp [getErrorFeedbackDaemonStatus, hrun, hpid, pidTruthy, hq, h]
  · intro h
    simp [getErrorFeedbackDaemonStatus, hrun, hpid, pidTruthy, hq, h]

/-- C8: every valid bundle written with `writeErrorBundle` (the writer
assigns `version = 1` and a non-empty uuid) can be read back from the file
it created with `readErrorBundle`, yielding a record field-for-field equal
to the bundle that was written. -/
theorem c8_write_read_roundtrip (params : WriteErrorBundleParams)
    (id now : String) (fs : Fs) (hid : ¬ id = "") :
    dirLookup (writeErrorBundle params id now fs).2.pending
        (buildBundleFilename id) =
      some (.parsed (writeErrorBundle params id now fs).1) ∧
    readErrorBundle (.parsed (writeErrorBundle params id now fs).1) =
      some (writeErrorBundle params id now fs).1 := by
  constructor
  · simp [writeErrorBundle, dirLookup_dirWrite]
  · exact readErrorBundle_parsed_of_valid hid rfl

/-- C9: counter semantics of one per-bundle step: a normally returning
processor increments `bundlesProcessed` by exactly 1 in every case
(including the retry case), while a throwing processor leaves
`bundlesProcessed` unchanged and increments only `bundlesFailed`; hence
after a retry step from zeroed counters `bundlesProcessed = 1` while
`bundlesResolved + bundlesFailed = 0`, so `bundlesProcessed` is not in
general `bundlesResolved + bundlesFailed`.  (`st0` has zeroed counters.) -/
theorem c9_counter_semantics :
    (∀ (s : ErrorFeedbackDaemonState) (fs : Fs) (b : ErrorBundle)
        (r : ErrorBundleResolution) (now : String),
      (processBundle s fs b (.ok r) now).1.bundlesProcessed =
        s.bundlesProcessed + 1) ∧
    (∀ (s : ErrorFeedbackDaemonState) (fs : Fs) (b : ErrorBundle)
        (msg now : String),
      (processBundle s fs b (.threw msg) now).1.bundlesProcessed =
          s.bundlesProcessed ∧
      (processBundle s fs b (.threw msg) now).1.bundlesFailed =
          s.bundlesFailed + 1) ∧
    ((processBundle st0 fsRetry bRetry (.ok resRetry) "t1").1.bundlesProcessed = 1 ∧
      (processBundle st0 fsRetry bRetry (.ok resRetry) "t1").1.bundlesResolved +
        (processBundle st0 fsRetry bRetry (.ok resRetry) "t1").1.bundlesFailed
        = 0) := by
  refine ⟨?_, ?_, by decide⟩
  · intro s fs b r now
    simp only [processBundle]
    split
    · rfl
    · split
      · rfl
      · rfl
  · intro s fs b msg now
    exact ⟨rfl, rfl⟩

/-- C10: every successful `start()` of a non-running daemon reinitializes
the in-memory state: the three counters are reset to 0, status becomes
`running`, `startedAt` is set to the current time and `pid` to the current
process id — the result does not depend on the previous state, so counters
from any previously persisted state are never restored. -/
theorem c10_start_reinitializes (s : ErrorFeedbackDaemonState)
    (now : String) (pid : Nat) (h : s.status ≠ .running) :
    daemonStart s now pid =
      { status := .running
        startedAt := some now
        lastPollAt := none
        bundlesProcessed := 0
        bundlesResolved := 0
        bundlesFailed := 0
        pid := some pid } := by
  simp [daemonStart, h]

/-! ### Closed instances of the hypothesised claim theorems -/

/-- Concrete instance of the retry-bound property on the fixture queue. -/
theorem c1_witness :
    FsInv fsRetry ∧
    (dirLookup (processBatch procRetry "t1" [] st0 fsRetry).2.pending
        (buildBundleFilename bRetry.id) =
      some (.parsed { bRetry with resolution := some resRetry, retryCount := bRetry.retryCount + 1 }) ∧
    dirLookup (processBatch procRetry "t1" [] st0 fsRetry).2.processed
        (buildBundleFilename bRetry.id) = none) :=
  ⟨by decide, c1_retry_keeps_bundle_pending procRetry "t1" st0 fsRetry bRetry resRetry
    (by decide) (by decide) (by decide) (by decide) (by decide) (by decide)
    (by decide) (by decide) (by decide) (by decide) (by decide)⟩

/-- Concrete instance of the exhaustion property on the fixture bundle
(`retryCount = maxRetries = 2`, resolution still requesting a retry). -/
theorem c2_witness :
    bExh.retryCount = bExh.maxRetries ∧
    (dirLookup (processBundle st0 fsExh bExh (.ok resRetry) "t2").2.processed
        (buildBundleFilename bExh.id) =
      some (.parsed { bExh with resolution := some resRetry, processed := true, processedAt := some "t2" }) ∧
    dirLookup (processBundle st0 fsExh bExh (.ok resRetry) "t2").2.pending
        (buildBundleFilename bExh.id) = none ∧
    (resRetry.resolved = false →
      (processBundle st0 fsExh bExh (.ok resRetry) "t2").1.bundlesFailed =
        st0.bundlesFailed + 1)) :=
  ⟨by decide, c2_exhausted_always_moved st0 fsExh bExh resRetry "t2" (by decide)⟩

/-- Concrete instance of processor-throw containment on the fixture bundle. -/
theorem c3_witness :
    procThrew bThrew = .threw "boom" ∧
    (dirLookup (processOneFile procThrew "t3" st0 fsThrew
        (buildBundleFilename bThrew.id)).2.processed (buildBundleFilename bThrew.id) =
      some (.parsed { bThrew with resolution := some (ErrorBundleResolution.mk false ("processing failed: " ++ "boom") none false), processed := true, processedAt := some "t3" }) ∧
    dirLookup (processOneFile procThrew "t3" st0 fsThrew
        (buildBundleFilename bThrew.id)).2.pending (buildBundleFilename bThrew.id) = none ∧
    processBatchLoop procThrew "t3" (buildBundleFilename bThrew.id :: []) [] st0 fsThrew =
      processBatchLoop procThrew "t3" [] []
        (processOneFile procThrew "t3" st0 fsThrew (buildBundleFilename bThrew.id)).1
        (processOneFile procThrew "t3" st0 fsThrew (buildBundleFilename bThrew.id)).2) :=
  ⟨by decide, c3_processor_throw_contained procThrew "t3" st0 fsThrew
    (buildBundleFilename bThrew.id) [] bThrew "boom"
    (by decide) (by decide) (by decide) (by decide) rfl (by decide)⟩

/-- Concrete instance of quarantining on a wrong-schema-version file. -/
theorem c4_witness :
    FsInv fsBad ∧
    (readErrorBundle (.parsed bBadVersion) = none ∧
    dirLookup (processBatch procResolve "t4" [] st0 fsBad).2.invalid
        (buildBundleFilename "bad") = some (.parsed bBadVersion) ∧
    dirLookup (processBatch procResolve "t4" [] st0 fsBad).2.pending
        (buildBundleFilename "bad") = none) :=
  ⟨by decide, c4_invalid_file_quarantined procResolve "t4" st0 fsBad
    (buildBundleFilename "bad") (.parsed bBadVersion) (by decide) (by decide)
    (Or.inr ⟨bBadVersion, rfl, Or.inr (by decide)⟩) (by decide)⟩

/-- Concrete instance of the amended catch-up property on the stale fixture. -/
theorem c6_witness :
    bStale.processed = true ∧
    (dirLookup (processOneFile procResolve "2025-06-01T00:00:00.000Z" st0 fsStale
        (buildBundleFilename bStale.id)).2.processed (buildBundleFilename bStale.id) =
      some (.parsed { bStale with processed := true, processedAt := some "2025-06-01T00:00:00.000Z" }) ∧
    dirLookup (processOneFile procResolve "2025-06-01T00:00:00.000Z" st0 fsStale
        (buildBundleFilename bStale.id)).2.pending (buildBundleFilename bStale.id) = none ∧
    (processOneFile procResolve "2025-06-01T00:00:00.000Z" st0 fsStale
        (buildBundleFilename bStale.id)).1 = st0) :=
  ⟨by decide, c6_amended_catchup_restamps_processedAt procResolve
    "2025-06-01T00:00:00.000Z" st0 fsStale (buildBundleFilename bStale.id) bStale
    (by decide) (by decide) (by decide) (by decide) rfl⟩

/-- Concrete instance of crash detection: the persisted state claims pid
4242 but no process is alive. -/
theorem c7_witness :
    pRun.status = .running ∧
    ((((fun _ => false) : Nat → Bool) 4242 = false →
      getErrorFeedbackDaemonStatus none (some pRun) (fun _ => false) =
        ({ pRun with status := .stopped }, some pRun)) ∧
    (((fun _ => false) : Nat → Bool) 4242 = true →
      getErrorFeedbackDaemonStatus none (some pRun) (fun _ => false) =
        (pRun, some pRun))) :=
  ⟨rfl, c7_status_query_crash_detection pRun (fun _ => false) 4242 rfl rfl
    (by decide)⟩

/-- Concrete instance of the write/read round-trip on an empty queue. -/
theorem c8_witness :
    ¬ "wid" = "" ∧
    (dirLookup (writeErrorBundle paramsW "wid" "t8" ⟨[], [], []⟩).2.pending
        (buildBundleFilename "wid") =
      some (.parsed (writeErrorBundle paramsW "wid" "t8" ⟨[], [], []⟩).1) ∧
    readErrorBundle (.parsed (writeErrorBundle paramsW "wid" "t8" ⟨[], [], []⟩).1) =
      some (writeErrorBundle paramsW "wid" "t8" ⟨[], [], []⟩).1) :=
  ⟨by decide, c8_write_read_roundtrip paramsW "wid" "t8" ⟨[], [], []⟩ (by decide)⟩

/-- Concrete instance of start-reinitialization from a stopped state with
non-zero counters. -/
theorem c10_witness :
    sPrev.status ≠ .running ∧
    daemonStart sPrev "t10" 2222 =
      { status := .running
        startedAt := some "t10"
        lastPollAt := none
        bundlesProcessed := 0
        bundlesResolved := 0
        bundlesFailed := 0
        pid := some 2222 } :=
  ⟨by decide, c10_start_reinitializes sPrev "t10" 2222 (by decide)⟩

end Clawdbot
